import Mathlib

/-!
Verification of the three-stage trading pipeline in `PowerTrading_AgAI.py`.

The Python program threads a mutable dict (the session record) through three
stage functions — `market_data_agent`, `research_agent`, `trader_agent` — and
then color-codes the final recommendation in the presentation layer.  We embed
the record as an association list with Python `dict.update` semantics, the
price history provider as an oracle `String → Option (List ℚ)` (`none` models
a lookup that raises), and the language-model completion endpoint as an oracle
from message lists to either an error (a raised exception) or the list of
choice texts.  Closing prices are modelled as rationals; Python's `:.2f`
formatting is modelled by round-half-to-even at two decimals, and the one
place where IEEE non-finite values can arise (division by a zero first close,
which under numpy float64 yields inf/nan rather than raising) is modelled by
emitting the strings "inf"/"-inf"/"nan" exactly as `format` would.
-/

/-! ## The session record: a Python dict of string keys and string values -/

/-- A Python dict with string keys and values, as an association list whose
keys are unique in insertion order (as maintained by `setKey`). -/
abbrev Dict := List (String × String)

/-- Sets key `k` to `v`: replaces in place if present, else appends at the end
(Python dict assignment order semantics). -/
def setKey : Dict → String → String → Dict
  | [], k, v => [(k, v)]
  | (k', v') :: rest, k, v =>
      if k' = k then (k, v) :: rest else (k', v') :: setKey rest k v

/-- Python `d.update(delta)`: assign every pair of `delta` into `d` in order. -/
def dictUpdate (d : Dict) (delta : Dict) : Dict :=
  delta.foldl (fun acc p => setKey acc p.1 p.2) d

/-- Python `d[k]` / `d.get(k)`: first binding of `k`, if any. -/
def dictGet : Dict → String → Option String
  | [], _ => none
  | (k', v) :: rest, k => if k' = k then some v else dictGet rest k

theorem dictGet_setKey_same (d : Dict) (k v : String) :
    dictGet (setKey d k v) k = some v := by
  induction d with
  | nil => simp [setKey, dictGet]
  | cons p rest ih =>
      by_cases h : p.1 = k
      · simp [setKey, dictGet, h]
      · simp [setKey, dictGet, h, ih]

theorem dictGet_setKey_ne (d : Dict) (k v k' : String) (h : k ≠ k') :
    dictGet (setKey d k v) k' = dictGet d k' := by
  induction d with
  | nil => simp [setKey, dictGet, h]
  | cons p rest ih =>
      by_cases hp : p.1 = k
      · simp [setKey, dictGet, hp, h]
      · simp [setKey, dictGet, hp, ih]

theorem dictUpdate_cons (d : Dict) (p : String × String) (delta : Dict) :
    dictUpdate d (p :: delta) = dictUpdate (setKey d p.1 p.2) delta := rfl

/-- Merging a delta leaves every key that the delta does not mention unchanged. -/
theorem dictGet_update_of_notMem (delta : Dict) :
    ∀ (d : Dict) (k : String), (∀ p ∈ delta, p.1 ≠ k) →
      dictGet (dictUpdate d delta) k = dictGet d k := by
  induction delta with
  | nil => intro d k _; rfl
  | cons p rest ih =>
      intro d k h
      rw [dictUpdate_cons, ih _ k (fun q hq => h q (List.mem_cons_of_mem p hq)),
        dictGet_setKey_ne d p.1 p.2 k (h p (List.mem_cons_self p rest))]

/-- Merging a singleton delta sets exactly that key. -/
theorem dictGet_update_singleton (d : Dict) (k v : String) :
    dictGet (dictUpdate d [(k, v)]) k = some v := by
  show dictGet (setKey d k v) k = some v
  exact dictGet_setKey_same d k v

/-! ## Two-decimal formatting (Python `:.2f`) on rationals -/

/-- Round-half-to-even of `100 * q` to the nearest integer, as IEEE
formatting at two decimals does.  `100 * q` is the exact fraction
`(100 * q.num) / q.den` with positive denominator, so its floor is computed
with `Int.fdiv` and the fractional remainder `Int.fmod` is compared against
half of the denominator. -/
def roundHundredths (q : ℚ) : ℤ :=
  let n := 100 * q.num
  let d := (q.den : ℤ)
  let f := n.fdiv d
  let r := n.fmod d
  if 2 * r < d then f
  else if 2 * r > d then f + 1
  else if f % 2 = 0 then f else f + 1

/-- Two decimal digits, zero-padded. -/
def pad2 (n : ℕ) : String :=
  if n < 10 then "0" ++ toString n else toString n

/-- Renders a count of hundredths as a decimal string with two digits after
the point. -/
def fmt2Nat (m : ℕ) : String :=
  toString (m / 100) ++ "." ++ pad2 (m % 100)

/-- Python `f"{q:.2f}"` for a finite value: round-half-even at two decimals,
with the sign taken from the value (so a tiny negative renders as "-0.00",
as `format` does). -/
def fmt2 (q : ℚ) : String :=
  if q < 0 then "-" ++ fmt2Nat (-(roundHundredths q)).toNat
  else fmt2Nat (roundHundredths q).toNat

/-! ## Stage 1: `market_data_agent` -/

/-- The fixed sentinel produced by the bare `except:` branch of
`market_data_agent`. -/
def fetchErrorStr : String := "Error fetching data (Check Ticker Symbol)"

/-- Python `f"{x:.2f}"` when `x` is the numpy float64 quotient `num / 0.0`:
numpy division by zero does not raise, it yields ±inf (or nan for 0/0), and
`format` renders those as shown. -/
def divZeroStr (num : ℚ) : String :=
  if num > 0 then "inf" else if num < 0 then "-inf" else "nan"

/-- Stage 1 of the pipeline.  `history` is the `ticker.history(period="5d")`
closing-price lookup; `none` models a raised exception (bad symbol, network
failure), which the bare `except:` collapses to the sentinel, as it does the
`IndexError` from `iloc` on an empty frame.  `state` always holds
`company_symbol` at the call site, so the `getD` default is never used. -/
def market_data_agent (history : String → Option (List ℚ)) (state : Dict) : Dict :=
  match history ((dictGet state "company_symbol").getD "") with
  | none => [("price_data", fetchErrorStr)]
  | some closes =>
      match closes.getLast?, closes.head? with
      | some currentPrice, some startPrice =>
          let changeStr :=
            if startPrice = 0 then divZeroStr (currentPrice - startPrice)
            else fmt2 ((currentPrice - startPrice) / startPrice * 100)
          [("price_data",
            "Price: ₹" ++ fmt2 currentPrice ++ " | 5-Day Change: " ++ changeStr ++ "%")]
      | _, _ => [("price_data", fetchErrorStr)]

/-! ## Stages 2 and 3: the language-model calls -/

/-- One chat message, Python `{"role": ..., "content": ...}`. -/
structure Message where
  role : String
  content : String
deriving DecidableEq

/-- The completion endpoint `client.chat.completions.create(model, messages)`,
abstracted: it receives the model name and the message list and yields either
a raised exception (`Except.error` with its text) or the list of choice
texts (`response.choices`, each projected to `.message.content`). -/
abbrev Completion := String → List Message → Except String (List String)

/-- What can abort stage 2 or stage 3: the completion call raising, or
`response.choices[0]` failing on an empty choice list. -/
inductive LMError where
  | apiFailure (msg : String)
  | emptyChoices
deriving DecidableEq

/-- The fixed system instruction of `research_agent`. -/
def researcherSystemContent : String :=
  "You are a senior energy market researcher. Summarize key drivers in 3 bullet points."

/-- The query template of `research_agent`. -/
def researchQuery (companyName : String) : String :=
  "Latest news affecting " ++ companyName ++
    " share price in India. Focus on coal supply, government energy policy, and renewable projects. Be concise."

/-- The two-message request body of `research_agent`. -/
def researchMessages (state : Dict) : List Message :=
  [⟨"system", researcherSystemContent⟩,
   ⟨"user", researchQuery ((dictGet state "company_name").getD "")⟩]

/-- Stage 2 of the pipeline: sends the system+user pair to the endpoint and
returns the first choice's text as the `news_summary` delta.  No handler
wraps the call, so an endpoint failure propagates as an error. -/
def research_agent (complete : Completion) (state : Dict) : Except LMError Dict :=
  match complete "sonar-pro" (researchMessages state) with
  | .error e => .error (.apiFailure e)
  | .ok choices =>
      match choices.head? with
      | some text => .ok [("news_summary", text)]
      | none => .error .emptyChoices

/-- The triple-quoted prompt template of `trader_agent`, with the exact
newlines and indentation of the Python source. -/
def traderPrompt (state : Dict) : String :=
  "\n    You are an AI Operator for a Grid-Connected Battery Storage System.\n    \n    ASSET: "
    ++ (dictGet state "company_name").getD ""
    ++ "\n    MARKET DATA: " ++ (dictGet state "price_data").getD ""
    ++ "\n    NEWS INTEL: " ++ (dictGet state "news_summary").getD ""
    ++ "\n    \n    DECISION RULES:\n    1. CHARGE: Low price/stable supply.\n    2. DISCHARGE: High price/supply crunch.\n    3. HOLD: Uncertain/Wait for event.\n    \n    Task: Decide CHARGE, DISCHARGE, or HOLD.\n    Start with the decision in BOLD (e.g., **CHARGE**). Then explain in 1 short paragraph.\n    "

/-- The one-message request body of `trader_agent`. -/
def traderMessages (state : Dict) : List Message :=
  [⟨"user", traderPrompt state⟩]

/-- Stage 3 of the pipeline: sends the single user message and returns the
first choice's text as the `final_recommendation` delta; failures propagate
exactly as in stage 2. -/
def trader_agent (complete : Completion) (state : Dict) : Except LMError Dict :=
  match complete "sonar-pro" (traderMessages state) with
  | .error e => .error (.apiFailure e)
  | .ok choices =>
      match choices.head? with
      | some text => .ok [("final_recommendation", text)]
      | none => .error .emptyChoices

/-! ## The execution block behind the run button -/

/-- Outcome of one press of the run button: the early return with the
`st.error` banner when the key is empty, an uncaught exception escaping the
block (with the record as it stood at that moment), or a completed run. -/
inductive RunResult where
  | missingKey
  | failed (e : LMError) (stateAtFailure : Dict)
  | completed (finalState : Dict)
deriving DecidableEq

/-- The record as first assigned: only the two operator inputs. -/
def initState (ticker companyName : String) : Dict :=
  [("company_symbol", ticker), ("company_name", companyName)]

/-- The record after the stage-1 update. -/
def stage1State (history : String → Option (List ℚ)) (ticker companyName : String) : Dict :=
  dictUpdate (initState ticker companyName)
    (market_data_agent history (initState ticker companyName))

/-- The record after the stage-2 update, given the news text stage 2
returned. -/
def stage2State (history : String → Option (List ℚ))
    (ticker companyName newsText : String) : Dict :=
  dictUpdate (stage1State history ticker companyName) [("news_summary", newsText)]

/-- The execution logic of the run-button block: refuse on an empty key,
then run the three stages in order, merging each delta with `state.update`;
a stage-2 or stage-3 error escapes and ends the run at that point. -/
def runPipeline (apiKey ticker companyName : String)
    (history : String → Option (List ℚ)) (complete : Completion) : RunResult :=
  if apiKey = "" then .missingKey
  else
    match research_agent complete (stage1State history ticker companyName) with
    | .error e => .failed e (stage1State history ticker companyName)
    | .ok newsDelta =>
        match trader_agent complete
            (dictUpdate (stage1State history ticker companyName) newsDelta) with
        | .error e => .failed e (dictUpdate (stage1State history ticker companyName) newsDelta)
        | .ok tradeDelta =>
            .completed (dictUpdate
              (dictUpdate (stage1State history ticker companyName) newsDelta) tradeDelta)

/-! ## The presentation-layer decision color-coding -/

/-- Python `needle in hay` on character lists: some tail of `hay` starts
with `needle`. -/
def hasSubstr (needle : List Char) : List Char → Bool
  | [] => needle.isEmpty
  | c :: t => needle.isPrefixOf (c :: t) || hasSubstr needle t

/-- Python `s.upper()` (ASCII letters, which is all the classifier uses):
uppercase every character. -/
def pyUpper (s : String) : String := ⟨s.data.map Char.toUpper⟩

/-- Python `pat in rec.upper()`: case-insensitive substring test, with the
pattern taken verbatim (the source's patterns are already uppercase). -/
def containsCI (rec pat : String) : Bool :=
  hasSubstr pat.data (pyUpper rec).data

/-- The color-coding of the final recommendation in the report section:
green when the uppercased text contains "CHARGE" or "BUY", else red when it
contains "DISCHARGE" or "SELL", else orange. -/
def classifyColor (rec : String) : String :=
  if containsCI rec "CHARGE" || containsCI rec "BUY" then "green"
  else if containsCI rec "DISCHARGE" || containsCI rec "SELL" then "red"
  else "orange"


/-! ## Substring lemmas for the classifier -/

theorem hasSubstr_nil (hay : List Char) : hasSubstr [] hay = true := by
  induction hay with
  | nil => rfl
  | cons c t ih => simp [hasSubstr, List.isPrefixOf]

theorem isPrefixOf_append_of_isPrefixOf (p : List Char) :
    ∀ (l t : List Char), p.isPrefixOf l = true → p.isPrefixOf (l ++ t) = true := by
  induction p with
  | nil => intro l t _; cases l ++ t <;> rfl
  | cons a as ih =>
      intro l t h
      cases l with
      | nil => exact absurd h (by simp [List.isPrefixOf])
      | cons b bs =>
          rw [List.cons_append]
          simp only [List.isPrefixOf, Bool.and_eq_true] at h ⊢
          exact ⟨h.1, ih bs t h.2⟩

theorem eq_append_of_isPrefixOf (p : List Char) :
    ∀ (l : List Char), p.isPrefixOf l = true → ∃ t, l = p ++ t := by
  induction p with
  | nil => intro l _; exact ⟨l, rfl⟩
  | cons a as ih =>
      intro l h
      cases l with
      | nil => exact absurd h (by simp [List.isPrefixOf])
      | cons b bs =>
          simp only [List.isPrefixOf, Bool.and_eq_true, beq_iff_eq] at h
          obtain ⟨t, ht⟩ := ih bs h.2
          exact ⟨t, by rw [List.cons_append, h.1, ← ht]⟩

theorem hasSubstr_append_left (needle : List Char) :
    ∀ (l t : List Char), hasSubstr needle l = true → hasSubstr needle (l ++ t) = true := by
  intro l
  induction l with
  | nil =>
      intro t h
      have hn : needle = [] := by simpa [hasSubstr] using h
      subst hn
      exact hasSubstr_nil t
  | cons c l' ih =>
      intro t h
      have h' : needle.isPrefixOf (c :: l') = true ∨ hasSubstr needle l' = true := by
        simpa [hasSubstr, Bool.or_eq_true] using h
      show (needle.isPrefixOf (c :: (l' ++ t)) || hasSubstr needle (l' ++ t)) = true
      rw [Bool.or_eq_true]
      cases h' with
      | inl hp => exact Or.inl (isPrefixOf_append_of_isPrefixOf needle (c :: l') t hp)
      | inr hr => exact Or.inr (ih t hr)

theorem hasSubstr_trans (small big : List Char) :
    ∀ (hay : List Char), hasSubstr small big = true → hasSubstr big hay = true →
      hasSubstr small hay = true := by
  intro hay
  induction hay with
  | nil =>
      intro h1 h2
      have hb : big = [] := by simpa [hasSubstr] using h2
      subst hb
      exact h1
  | cons c t ih =>
      intro h1 h2
      have h2' : big.isPrefixOf (c :: t) = true ∨ hasSubstr big t = true := by
        simpa [hasSubstr, Bool.or_eq_true] using h2
      cases h2' with
      | inl hp =>
          obtain ⟨r, hr⟩ := eq_append_of_isPrefixOf big (c :: t) hp
          rw [hr]
          exact hasSubstr_append_left small big r h1
      | inr hr =>
          show (small.isPrefixOf (c :: t) || hasSubstr small t) = true
          rw [Bool.or_eq_true]
          exact Or.inr (ih h1 hr)

/-- "CHARGE" occurs inside "DISCHARGE", so any text whose uppercasing
contains "DISCHARGE" also contains "CHARGE". -/
theorem containsCI_CHARGE_of_DISCHARGE (rec : String)
    (h : containsCI rec "DISCHARGE" = true) : containsCI rec "CHARGE" = true :=
  hasSubstr_trans _ _ _ (by decide) h

/-! ## Structure lemmas for the pipeline record -/

theorem market_data_agent_key (history : String → Option (List ℚ)) (s : Dict) :
    ∃ v, market_data_agent history s = [("price_data", v)] := by
  cases hh : history ((dictGet s "company_symbol").getD "") with
  | none => exact ⟨fetchErrorStr, by simp only [market_data_agent, hh]⟩
  | some closes =>
      cases hl : closes.getLast? with
      | none => exact ⟨fetchErrorStr, by simp only [market_data_agent, hh, hl]⟩
      | some cur =>
          cases hd : closes.head? with
          | none => exact ⟨fetchErrorStr, by simp only [market_data_agent, hh, hl, hd]⟩
          | some start =>
              refine ⟨"Price: ₹" ++ fmt2 cur ++ " | 5-Day Change: " ++
                (if start = 0 then divZeroStr (cur - start)
                 else fmt2 ((cur - start) / start * 100)) ++ "%", ?_⟩
              simp only [market_data_agent, hh, hl, hd]

theorem stage1State_eq (history : String → Option (List ℚ)) (t c : String) :
    ∃ v, stage1State history t c =
      [("company_symbol", t), ("company_name", c), ("price_data", v)] := by
  obtain ⟨v, hv⟩ := market_data_agent_key history (initState t c)
  refine ⟨v, ?_⟩
  rw [stage1State, hv]
  show setKey (initState t c) "price_data" v = _
  simp [initState, setKey]

theorem stage2State_eq (history : String → Option (List ℚ)) (t c w : String) :
    ∃ v, stage2State history t c w =
      [("company_symbol", t), ("company_name", c), ("price_data", v),
       ("news_summary", w)] := by
  obtain ⟨v, hv⟩ := stage1State_eq history t c
  refine ⟨v, ?_⟩
  rw [stage2State, hv]
  show setKey _ "news_summary" w = _
  simp [setKey]

theorem research_agent_ok (complete : Completion) (s : Dict) (text : String)
    (rest : List String)
    (h : complete "sonar-pro" (researchMessages s) = .ok (text :: rest)) :
    research_agent complete s = .ok [("news_summary", text)] := by
  unfold research_agent
  rw [h]
  rfl

theorem research_agent_err (complete : Completion) (s : Dict) (msg : String)
    (h : complete "sonar-pro" (researchMessages s) = .error msg) :
    research_agent complete s = .error (.apiFailure msg) := by
  unfold research_agent
  rw [h]

theorem trader_agent_ok (complete : Completion) (s : Dict) (text : String)
    (rest : List String)
    (h : complete "sonar-pro" (traderMessages s) = .ok (text :: rest)) :
    trader_agent complete s = .ok [("final_recommendation", text)] := by
  unfold trader_agent
  rw [h]
  rfl

theorem trader_agent_err (complete : Completion) (s : Dict) (msg : String)
    (h : complete "sonar-pro" (traderMessages s) = .error msg) :
    trader_agent complete s = .error (.apiFailure msg) := by
  unfold trader_agent
  rw [h]

theorem runPipeline_emptyKey (t c : String) (history : String → Option (List ℚ))
    (complete : Completion) : runPipeline "" t c history complete = .missingKey := rfl

theorem runPipeline_stage2_err (apiKey t c msg : String)
    (history : String → Option (List ℚ)) (complete : Completion)
    (hkey : apiKey ≠ "")
    (h2 : complete "sonar-pro" (researchMessages (stage1State history t c)) = .error msg) :
    runPipeline apiKey t c history complete =
      .failed (.apiFailure msg) (stage1State history t c) := by
  unfold runPipeline
  rw [if_neg hkey, research_agent_err complete _ msg h2]

theorem runPipeline_stage3_err (apiKey t c w msg : String) (rest : List String)
    (history : String → Option (List ℚ)) (complete : Completion)
    (hkey : apiKey ≠ "")
    (h2 : complete "sonar-pro" (researchMessages (stage1State history t c)) = .ok (w :: rest))
    (h3 : complete "sonar-pro" (traderMessages (stage2State history t c w)) = .error msg) :
    runPipeline apiKey t c history complete =
      .failed (.apiFailure msg) (stage2State history t c w) := by
  unfold runPipeline
  rw [if_neg hkey, research_agent_ok complete _ w rest h2]
  show (match trader_agent complete (stage2State history t c w) with
    | .error e => RunResult.failed e (stage2State history t c w)
    | .ok tradeDelta => .completed (dictUpdate (stage2State history t c w) tradeDelta)) = _
  rw [trader_agent_err complete _ msg h3]

theorem runPipeline_completed (apiKey t c w r : String) (rest₂ rest₃ : List String)
    (history : String → Option (List ℚ)) (complete : Completion)
    (hkey : apiKey ≠ "")
    (h2 : complete "sonar-pro" (researchMessages (stage1State history t c)) = .ok (w :: rest₂))
    (h3 : complete "sonar-pro" (traderMessages (stage2State history t c w)) = .ok (r :: rest₃)) :
    runPipeline apiKey t c history complete =
      .completed (dictUpdate (stage2State history t c w) [("final_recommendation", r)]) := by
  unfold runPipeline
  rw [if_neg hkey, research_agent_ok complete _ w rest₂ h2]
  show (match trader_agent complete (stage2State history t c w) with
    | .error e => RunResult.failed e (stage2State history t c w)
    | .ok tradeDelta => .completed (dictUpdate (stage2State history t c w) tradeDelta)) = _
  rw [trader_agent_ok complete _ r rest₃ h3]

theorem stage1State_of_fail (history : String → Option (List ℚ)) (t c : String)
    (hf : history t = none) :
    stage1State history t c =
      [("company_symbol", t), ("company_name", c), ("price_data", fetchErrorStr)] := by
  have hsym : (dictGet (initState t c) "company_symbol").getD "" = t := by
    simp [initState, dictGet]
  have hm : market_data_agent history (initState t c) = [("price_data", fetchErrorStr)] := by
    simp only [market_data_agent, hsym, hf]
  rw [stage1State, hm]
  show setKey (initState t c) "price_data" fetchErrorStr = _
  simp [initState, setKey]

theorem initState_gets (t c : String) :
    dictGet (initState t c) "company_symbol" = some t ∧
    dictGet (initState t c) "company_name" = some c ∧
    dictGet (initState t c) "price_data" = none ∧
    dictGet (initState t c) "news_summary" = none ∧
    dictGet (initState t c) "final_recommendation" = none := by
  refine ⟨?_, ?_, ?_, ?_, ?_⟩ <;> simp [initState, dictGet]

theorem stage1State_gets (history : String → Option (List ℚ)) (t c : String) :
    dictGet (stage1State history t c) "company_symbol" = some t ∧
    dictGet (stage1State history t c) "company_name" = some c ∧
    (∃ v, dictGet (stage1State history t c) "price_data" = some v) ∧
    dictGet (stage1State history t c) "news_summary" = none ∧
    dictGet (stage1State history t c) "final_recommendation" = none := by
  obtain ⟨v, hv⟩ := stage1State_eq history t c
  rw [hv]
  refine ⟨?_, ?_, ⟨v, ?_⟩, ?_, ?_⟩ <;> simp [dictGet]

theorem stage2State_gets (history : String → Option (List ℚ)) (t c w : String) :
    dictGet (stage2State history t c w) "company_symbol" = some t ∧
    dictGet (stage2State history t c w) "company_name" = some c ∧
    (∃ v, dictGet (stage2State history t c w) "price_data" = some v) ∧
    dictGet (stage2State history t c w) "news_summary" = some w ∧
    dictGet (stage2State history t c w) "final_recommendation" = none := by
  obtain ⟨v, hv⟩ := stage2State_eq history t c w
  rw [hv]
  refine ⟨?_, ?_, ⟨v, ?_⟩, ?_, ?_⟩ <;> simp [dictGet]

theorem finalState_eq (history : String → Option (List ℚ)) (t c w r : String) :
    ∃ v, dictUpdate (stage2State history t c w) [("final_recommendation", r)] =
      [("company_symbol", t), ("company_name", c), ("price_data", v),
       ("news_summary", w), ("final_recommendation", r)] := by
  obtain ⟨v, hv⟩ := stage2State_eq history t c w
  refine ⟨v, ?_⟩
  rw [hv]
  show setKey _ "final_recommendation" r = _
  simp [setKey]

theorem finalState_gets (history : String → Option (List ℚ)) (t c w r : String) :
    dictGet (dictUpdate (stage2State history t c w) [("final_recommendation", r)])
        "final_recommendation" = some r ∧
    dictGet (dictUpdate (stage2State history t c w) [("final_recommendation", r)])
        "news_summary" = some w ∧
    dictGet (dictUpdate (stage2State history t c w) [("final_recommendation", r)])
        "company_symbol" = some t ∧
    dictGet (dictUpdate (stage2State history t c w) [("final_recommendation", r)])
        "company_name" = some c ∧
    ∃ v, dictGet (dictUpdate (stage2State history t c w) [("final_recommendation", r)])
        "price_data" = some v := by
  obtain ⟨v, hv⟩ := finalState_eq history t c w r
  rw [hv]
  refine ⟨?_, ?_, ?_, ?_, ⟨v, ?_⟩⟩ <;> simp [dictGet]

/-! ## The claims -/

/-- Claim C1, counterexample: the classifier does NOT yield the red
(DISCHARGE) category for the text "**DISCHARGE** due to heatwave"; because
the CHARGE test runs first and "DISCHARGE" contains "CHARGE", the text is
classified green. -/
theorem c1_discharge_text_not_red :
    classifyColor "**DISCHARGE** due to heatwave" = "green" ∧
    classifyColor "**DISCHARGE** due to heatwave" ≠ "red" := by
  constructor
  · decide
  · decide

/-- Claim C1 (amended): for the recommendation text "**DISCHARGE** due to
heatwave" the presentation-layer classifier yields category CHARGE (green),
not DISCHARGE (red), because the case-insensitive substring checks run in a
fixed order with CHARGE first and "DISCHARGE" contains "CHARGE"; for any
text containing both "CHARGE" and "DISCHARGE" substrings the first matched
category in the check order (CHARGE, green) governs. -/
theorem c1_first_match_governs :
    classifyColor "**DISCHARGE** due to heatwave" = "green" ∧
    ∀ rec, containsCI rec "DISCHARGE" = true → containsCI rec "CHARGE" = true →
      classifyColor rec = "green" := by
  constructor
  · decide
  · intro rec _ hc
    simp [classifyColor, hc]

theorem c1_first_match_governs_witness :
    containsCI "**DISCHARGE** tonight" "DISCHARGE" = true ∧
    classifyColor "**DISCHARGE** tonight" = "green" :=
  ⟨by decide, c1_first_match_governs.2 "**DISCHARGE** tonight" (by decide) (by decide)⟩

/-- Claim C2: whenever the price-history lookup raises (modelled as the
oracle returning `none`), stage 1 returns the single fixed sentinel string
as the `price_data` delta and never itself raises (it is a total function);
moreover the pipeline does not halt: with the stage-1 lookup failing and the
two completion calls succeeding, the run completes, with the sentinel as the
recorded price summary. -/
theorem c2_lookup_failure_sentinel :
    (∀ (history : String → Option (List ℚ)) (s : Dict),
      history ((dictGet s "company_symbol").getD "") = none →
      market_data_agent history s = [("price_data", fetchErrorStr)]) ∧
    (∀ (apiKey t c w r : String) (ws rs : List String)
        (history : String → Option (List ℚ)) (complete : Completion),
      apiKey ≠ "" → history t = none →
      complete "sonar-pro" (researchMessages (stage1State history t c)) = .ok (w :: ws) →
      complete "sonar-pro" (traderMessages (stage2State history t c w)) = .ok (r :: rs) →
      dictGet (stage1State history t c) "price_data" = some fetchErrorStr ∧
      runPipeline apiKey t c history complete =
        .completed (dictUpdate (stage2State history t c w) [("final_recommendation", r)])) := by
  constructor
  · intro history s hf
    simp only [market_data_agent, hf]
  · intro apiKey t c w r ws rs history complete hkey hf h2 h3
    constructor
    · rw [stage1State_of_fail history t c hf]
      simp [dictGet]
    · exact runPipeline_completed apiKey t c w r ws rs history complete hkey h2 h3

theorem c2_lookup_failure_sentinel_witness :
    market_data_agent (fun _ => none) [("company_symbol", "BAD.TICKER")] =
      [("price_data", fetchErrorStr)] ∧
    dictGet (stage1State (fun _ => none) "BAD.TICKER" "BadCo") "price_data" =
      some fetchErrorStr ∧
    runPipeline "k" "BAD.TICKER" "BadCo" (fun _ => none) (fun _ _ => .ok ["n"]) =
      .completed (dictUpdate (stage2State (fun _ => none) "BAD.TICKER" "BadCo" "n")
        [("final_recommendation", "n")]) := by
  refine ⟨c2_lookup_failure_sentinel.1 _ _ rfl, ?_, ?_⟩
  · exact (c2_lookup_failure_sentinel.2 "k" "BAD.TICKER" "BadCo" "n" "n" [] []
      (fun _ => none) (fun _ _ => .ok ["n"]) (by decide) rfl rfl rfl).1
  · exact (c2_lookup_failure_sentinel.2 "k" "BAD.TICKER" "BadCo" "n" "n" [] []
      (fun _ => none) (fun _ _ => .ok ["n"]) (by decide) rfl rfl rfl).2

/-- Claim C3: when no API key is supplied (the text input is the empty
string), the run-button block shows the error banner and returns before any
stage runs: the outcome is the `missingKey` refusal — a value, not an
exception — it does not depend on either external oracle (so no network
call, including the stage-1 price fetch, can have been made), and it carries
no record at all, so none of price_data, news_summary, or
final_recommendation are populated. -/
theorem c3_missing_key_aborts :
    (∀ (t c : String) (history : String → Option (List ℚ)) (complete : Completion),
      runPipeline "" t c history complete = RunResult.missingKey) ∧
    (∀ (t c : String) (h₁ h₂ : String → Option (List ℚ)) (comp₁ comp₂ : Completion),
      runPipeline "" t c h₁ comp₁ = runPipeline "" t c h₂ comp₂) := by
  constructor
  · intro t c history complete
    rfl
  · intro t c h₁ h₂ comp₁ comp₂
    rfl

/-- Claim C4, counterexample: with closes `[0, 101]` (at least 2 days of
history) the produced summary is "Price: ₹101.00 | 5-Day Change: inf%",
which is not the claimed format whose percentage field is the 2-decimal
rounding of `(last - first) / first * 100`. -/
theorem c4_zero_first_close :
    market_data_agent (fun _ => some [0, 101]) [("company_symbol", "AAA.NS")] =
      [("price_data", "Price: ₹101.00 | 5-Day Change: inf%")] ∧
    "Price: ₹101.00 | 5-Day Change: inf%" ≠
      "Price: ₹" ++ fmt2 101 ++ " | 5-Day Change: " ++
        fmt2 (((101 : ℚ) - 0) / 0 * 100) ++ "%" := by
  constructor
  · have hsub : (101 : ℚ) - 0 = 101 := by norm_num
    simp only [market_data_agent, dictGet]
    norm_num [hsub, divZeroStr]
    decide
  · have h0 : ((101 : ℚ) - 0) / 0 * 100 = 0 := by norm_num
    rw [h0]
    decide

/-- Claim C4 (amended): for every symbol with at least 2 days of
closing-price history whose first close is nonzero, stage 1 returns the
string containing the last close and the percentage change, the price being
the last close rounded to 2 decimals and the percentage being
`(last - first) / first * 100` rounded to 2 decimals; in particular for the
5-day closes `[100, 102, 99, 101, 103]` the summary is exactly
"Price: ₹103.00 | 5-Day Change: 3.00%", a positive (+3.00) change.  (The
nonzero-first-close proviso is forced: at a zero first close the division
yields an IEEE non-finite value and the summary shows "inf"/"nan".) -/
theorem c4_price_summary_format :
    (∀ (history : String → Option (List ℚ)) (s : Dict) (closes : List ℚ) (first last : ℚ),
      history ((dictGet s "company_symbol").getD "") = some closes →
      closes.head? = some first → closes.getLast? = some last →
      2 ≤ closes.length → first ≠ 0 →
      market_data_agent history s =
        [("price_data", "Price: ₹" ++ fmt2 last ++ " | 5-Day Change: " ++
          fmt2 ((last - first) / first * 100) ++ "%")]) ∧
    (∀ s : Dict,
      market_data_agent (fun _ => some [100, 102, 99, 101, 103]) s =
        [("price_data", "Price: ₹103.00 | 5-Day Change: 3.00%")] ∧
      (0 : ℚ) < (103 - 100) / 100 * 100) := by
  constructor
  · intro history s closes first last hh hhd hl hlen hne
    simp only [market_data_agent, hh, hl, hhd]
    rw [if_neg hne]
  · intro s
    constructor
    · have hch : ((103 : ℚ) - 100) / 100 * 100 = 3 := by norm_num
      simp only [market_data_agent]
      norm_num [hch]
      decide
    · norm_num

theorem c4_price_summary_format_witness :
    market_data_agent (fun _ => some [100, 102, 99, 101, 103])
        [("company_symbol", "AAA.NS")] =
      [("price_data", "Price: ₹" ++ fmt2 103 ++ " | 5-Day Change: " ++
        fmt2 (((103 : ℚ) - 100) / 100 * 100) ++ "%")] :=
  c4_price_summary_format.1 (fun _ => some [100, 102, 99, 101, 103])
    [("company_symbol", "AAA.NS")] [100, 102, 99, 101, 103] 100 103
    rfl rfl rfl (by decide) (by decide)

/-- Claim C5, counterexample: for the single-day history `[0]` (first and
last close coincide at 0) the summary is "Price: ₹0.00 | 5-Day Change: nan%"
— the reported change is not 0.00 (though, as the equality shows, no error
escapes either: the agent still returns a summary). -/
theorem c5_zero_single_close :
    market_data_agent (fun _ => some [0]) [("company_symbol", "AAA.NS")] =
      [("price_data", "Price: ₹0.00 | 5-Day Change: nan%")] ∧
    "Price: ₹0.00 | 5-Day Change: nan%" ≠ "Price: ₹0.00 | 5-Day Change: 0.00%" := by
  constructor
  · simp only [market_data_agent, dictGet]
    norm_num [divZeroStr]
    decide
  · decide

/-- Claim C5 (amended): for every single-day (one-element) closing-price
history with nonzero close — first and last close coincide — stage 1 reports
a percentage change of exactly 0.00, and no division-by-zero error is
visible to the caller (the agent is a total function also at close 0, where
the summary degrades to "nan%" instead). -/
theorem c5_single_day_zero_change :
    ∀ (history : String → Option (List ℚ)) (s : Dict) (c : ℚ),
      history ((dictGet s "company_symbol").getD "") = some [c] → c ≠ 0 →
      market_data_agent history s =
        [("price_data", "Price: ₹" ++ fmt2 c ++ " | 5-Day Change: " ++ "0.00" ++ "%")] := by
  intro history s c hh hne
  have hch : (c - c) / c * 100 = 0 := by
    rw [sub_self, zero_div, zero_mul]
  have hfmt : fmt2 0 = "0.00" := by decide
  simp only [market_data_agent, hh, List.getLast?_singleton, List.head?_cons]
  rw [if_neg hne, hch, hfmt]

theorem c5_single_day_zero_change_witness :
    market_data_agent (fun _ => some [103]) [("company_symbol", "AAA.NS")] =
      [("price_data", "Price: ₹" ++ fmt2 103 ++ " | 5-Day Change: " ++ "0.00" ++ "%")] :=
  c5_single_day_zero_change (fun _ => some [103]) [("company_symbol", "AAA.NS")] 103
    rfl (by decide)

/-- Claim C6: an exception from the stage-2 or stage-3 completion call is
caught nowhere: the run ends as `failed` with that very error.  After a
stage-2 failure the escaping state has `news_summary` and
`final_recommendation` unset while `company_symbol`, `company_name` and
`price_data` are populated exactly as stage 1 left them; after a stage-3
failure only `final_recommendation` is unset. -/
theorem c6_completion_failure_propagates :
    (∀ (apiKey t c msg : String) (history : String → Option (List ℚ))
        (complete : Completion),
      apiKey ≠ "" →
      complete "sonar-pro" (researchMessages (stage1State history t c)) = .error msg →
      runPipeline apiKey t c history complete =
          .failed (.apiFailure msg) (stage1State history t c) ∧
        dictGet (stage1State history t c) "news_summary" = none ∧
        dictGet (stage1State history t c) "final_recommendation" = none ∧
        dictGet (stage1State history t c) "company_symbol" = some t ∧
        dictGet (stage1State history t c) "company_name" = some c ∧
        ∃ v, dictGet (stage1State history t c) "price_data" = some v) ∧
    (∀ (apiKey t c w msg : String) (rest : List String)
        (history : String → Option (List ℚ)) (complete : Completion),
      apiKey ≠ "" →
      complete "sonar-pro" (researchMessages (stage1State history t c)) = .ok (w :: rest) →
      complete "sonar-pro" (traderMessages (stage2State history t c w)) = .error msg →
      runPipeline apiKey t c history complete =
          .failed (.apiFailure msg) (stage2State history t c w) ∧
        dictGet (stage2State history t c w) "final_recommendation" = none ∧
        dictGet (stage2State history t c w) "news_summary" = some w) := by
  constructor
  · intro apiKey t c msg history complete hkey h2
    obtain ⟨hsym, hname, hprice, hnews, hfin⟩ := stage1State_gets history t c
    exact ⟨runPipeline_stage2_err apiKey t c msg history complete hkey h2,
      hnews, hfin, hsym, hname, hprice⟩
  · intro apiKey t c w msg rest history complete hkey h2 h3
    obtain ⟨_, _, _, hnews, hfin⟩ := stage2State_gets history t c w
    exact ⟨runPipeline_stage3_err apiKey t c w msg rest history complete hkey h2 h3,
      hfin, hnews⟩

theorem c6_completion_failure_propagates_witness :
    runPipeline "k" "T" "C" (fun _ => none) (fun _ _ => .error "auth failure") =
      .failed (.apiFailure "auth failure") (stage1State (fun _ => none) "T" "C") ∧
    dictGet (stage1State (fun _ => none) "T" "C") "news_summary" = none ∧
    runPipeline "k" "T" "C" (fun _ => none)
        (fun _ ms => if ms.length = 1 then .error "boom" else .ok ["n"]) =
      .failed (.apiFailure "boom") (stage2State (fun _ => none) "T" "C" "n") := by
  refine ⟨?_, ?_, ?_⟩
  · exact (c6_completion_failure_propagates.1 "k" "T" "C" "auth failure"
      (fun _ => none) (fun _ _ => .error "auth failure") (by decide) rfl).1
  · exact (c6_completion_failure_propagates.1 "k" "T" "C" "auth failure"
      (fun _ => none) (fun _ _ => .error "auth failure") (by decide) rfl).2.1
  · exact (c6_completion_failure_propagates.2 "k" "T" "C" "n" "boom" []
      (fun _ => none)
      (fun _ ms => if ms.length = 1 then .error "boom" else .ok ["n"])
      (by decide) rfl rfl).1

/-- Claim C7: in every well-formed (completing) run the session-record
fields are populated in strict document order: the initial record holds only
symbol and company name; after stage 1 `price_data` is set while
`news_summary` and `final_recommendation` are not; after stage 2
`news_summary` is set while `final_recommendation` is not; the run then
completes with the final record holding all fields — so no field is ever set
before its predecessor, and each stage runs exactly once, unconditionally,
in this order. -/
theorem c7_document_order :
    ∀ (apiKey t c w r : String) (ws rs : List String)
      (history : String → Option (List ℚ)) (complete : Completion),
      apiKey ≠ "" →
      complete "sonar-pro" (researchMessages (stage1State history t c)) = .ok (w :: ws) →
      complete "sonar-pro" (traderMessages (stage2State history t c w)) = .ok (r :: rs) →
      (dictGet (initState t c) "company_symbol" = some t ∧
        dictGet (initState t c) "company_name" = some c ∧
        dictGet (initState t c) "price_data" = none ∧
        dictGet (initState t c) "news_summary" = none ∧
        dictGet (initState t c) "final_recommendation" = none) ∧
      ((∃ v, dictGet (stage1State history t c) "price_data" = some v) ∧
        dictGet (stage1State history t c) "news_summary" = none ∧
        dictGet (stage1State history t c) "final_recommendation" = none) ∧
      (dictGet (stage2State history t c w) "news_summary" = some w ∧
        dictGet (stage2State history t c w) "final_recommendation" = none) ∧
      runPipeline apiKey t c history complete =
        .completed (dictUpdate (stage2State history t c w) [("final_recommendation", r)]) ∧
      (dictGet (dictUpdate (stage2State history t c w) [("final_recommendation", r)])
          "final_recommendation" = some r ∧
        dictGet (dictUpdate (stage2State history t c w) [("final_recommendation", r)])
          "news_summary" = some w ∧
        (∃ v, dictGet (dictUpdate (stage2State history t c w)
          [("final_recommendation", r)]) "price_data" = some v) ∧
        dictGet (dictUpdate (stage2State history t c w) [("final_recommendation", r)])
          "company_symbol" = some t ∧
        dictGet (dictUpdate (stage2State history t c w) [("final_recommendation", r)])
          "company_name" = some c) := by
  intro apiKey t c w r ws rs history complete hkey h2 h3
  obtain ⟨i1, i2, i3, i4, i5⟩ := initState_gets t c
  obtain ⟨s1a, s1b, s1c, s1d, s1e⟩ := stage1State_gets history t c
  obtain ⟨_, _, _, s2d, s2e⟩ := stage2State_gets history t c w
  obtain ⟨f1, f2, f3, f4, f5⟩ := finalState_gets history t c w r
  exact ⟨⟨i1, i2, i3, i4, i5⟩, ⟨s1c, s1d, s1e⟩, ⟨s2d, s2e⟩,
    runPipeline_completed apiKey t c w r ws rs history complete hkey h2 h3,
    f1, f2, f5, f3, f4⟩

theorem c7_document_order_witness :
    runPipeline "k" "T" "C" (fun _ => none) (fun _ _ => .ok ["n"]) =
      .completed (dictUpdate (stage2State (fun _ => none) "T" "C" "n")
        [("final_recommendation", "n")]) :=
  (c7_document_order "k" "T" "C" "n" "n" [] [] (fun _ => none)
    (fun _ _ => .ok ["n"]) (by decide) rfl rfl).2.2.2.1

/-- Claim C8: stage 2 sends a two-message sequence (one system message then
one user message) and stage 3 a one-message sequence (a single user
message); the two sequences are never equal; and each stage returns the
first returned choice's text verbatim as its output field. -/
theorem c8_message_sequences :
    (∀ s : Dict, (researchMessages s).map Message.role = ["system", "user"] ∧
      (researchMessages s).length = 2) ∧
    (∀ s : Dict, (traderMessages s).map Message.role = ["user"] ∧
      (traderMessages s).length = 1) ∧
    (∀ s t : Dict, researchMessages s ≠ traderMessages t) ∧
    (∀ (complete : Completion) (s : Dict) (text : String) (rest : List String),
      complete "sonar-pro" (researchMessages s) = .ok (text :: rest) →
      research_agent complete s = .ok [("news_summary", text)]) ∧
    (∀ (complete : Completion) (s : Dict) (text : String) (rest : List String),
      complete "sonar-pro" (traderMessages s) = .ok (text :: rest) →
      trader_agent complete s = .ok [("final_recommendation", text)]) := by
  refine ⟨fun s => ⟨rfl, rfl⟩, fun s => ⟨rfl, rfl⟩, ?_, research_agent_ok, trader_agent_ok⟩
  intro s t h
  have hl := congrArg List.length h
  simp [researchMessages, traderMessages] at hl

theorem c8_message_sequences_witness :
    research_agent (fun _ _ => .ok ["first choice", "second choice"]) [] =
      .ok [("news_summary", "first choice")] :=
  c8_message_sequences.2.2.2.1 (fun _ _ => .ok ["first choice", "second choice"])
    [] "first choice" ["second choice"] rfl

/-- Claim C9: the classifier recognizes "BUY" as CHARGE (green) and "SELL"
as DISCHARGE (red) and defaults to orange when no label matches; since
"DISCHARGE" contains "CHARGE" and the CHARGE test runs first, the red branch
is reached exactly for text containing "SELL" (case-insensitively) while
containing neither "CHARGE" nor "BUY" — in particular every text containing
"DISCHARGE" is classified green. -/
theorem c9_classifier_green_red_orange :
    (∀ rec, containsCI rec "BUY" = true → classifyColor rec = "green") ∧
    (∀ rec, containsCI rec "DISCHARGE" = true → classifyColor rec = "green") ∧
    (∀ rec, containsCI rec "CHARGE" = false → containsCI rec "BUY" = false →
      containsCI rec "SELL" = true → classifyColor rec = "red") ∧
    (∀ rec, classifyColor rec = "red" → containsCI rec "SELL" = true ∧
      containsCI rec "CHARGE" = false ∧ containsCI rec "BUY" = false) ∧
    (∀ rec, containsCI rec "CHARGE" = false → containsCI rec "BUY" = false →
      containsCI rec "DISCHARGE" = false → containsCI rec "SELL" = false →
      classifyColor rec = "orange") := by
  refine ⟨?_, ?_, ?_, ?_, ?_⟩
  · intro rec h
    simp [classifyColor, h]
  · intro rec h
    simp [classifyColor, containsCI_CHARGE_of_DISCHARGE rec h]
  · intro rec h1 h2 h3
    simp [classifyColor, h1, h2, h3]
  · intro rec h
    cases hch : containsCI rec "CHARGE" with
    | true => simp [classifyColor, hch] at h
    | false =>
        cases hbuy : containsCI rec "BUY" with
        | true => simp [classifyColor, hbuy] at h
        | false =>
            cases hsell : containsCI rec "SELL" with
            | true => exact ⟨rfl, rfl, rfl⟩
            | false =>
                cases hdis : containsCI rec "DISCHARGE" with
                | true =>
                    have hc := containsCI_CHARGE_of_DISCHARGE rec hdis
                    rw [hch] at hc
                    exact absurd hc (by decide)
                | false => simp [classifyColor, hch, hbuy, hsell, hdis] at h
  · intro rec h1 h2 h3 h4
    simp [classifyColor, h1, h2, h3, h4]

theorem c9_classifier_green_red_orange_witness :
    classifyColor "time to buy the dip" = "green" ∧
    classifyColor "**DISCHARGE** at peak" = "green" ∧
    classifyColor "we should sell now" = "red" ∧
    classifyColor "**HOLD** and wait" = "orange" :=
  ⟨c9_classifier_green_red_orange.1 "time to buy the dip" (by decide),
   c9_classifier_green_red_orange.2.1 "**DISCHARGE** at peak" (by decide),
   c9_classifier_green_red_orange.2.2.1 "we should sell now" (by decide) (by decide)
     (by decide),
   c9_classifier_green_red_orange.2.2.2.2 "**HOLD** and wait" (by decide) (by decide)
     (by decide) (by decide)⟩

/-- Claim C10: each stage function returns a record delta containing exactly
its own output key — `market_data_agent` only `price_data`, `research_agent`
only `news_summary`, `trader_agent` only `final_recommendation` — and
merging a delta into the record with `update` leaves every key the delta
does not mention, hence every previously populated field, unchanged. -/
theorem c10_delta_frame :
    (∀ (history : String → Option (List ℚ)) (s : Dict),
      ∃ v, market_data_agent history s = [("price_data", v)]) ∧
    (∀ (complete : Completion) (s d : Dict),
      research_agent complete s = .ok d → ∃ v, d = [("news_summary", v)]) ∧
    (∀ (complete : Completion) (s d : Dict),
      trader_agent complete s = .ok d → ∃ v, d = [("final_recommendation", v)]) ∧
    (∀ (d delta : Dict) (k : String), (∀ p ∈ delta, p.1 ≠ k) →
      dictGet (dictUpdate d delta) k = dictGet d k) := by
  refine ⟨market_data_agent_key, ?_, ?_,
    fun d delta k h => dictGet_update_of_notMem delta d k h⟩
  · intro complete s d h
    cases hc : complete "sonar-pro" (researchMessages s) with
    | error e => simp [research_agent, hc] at h
    | ok choices =>
        cases hh : choices.head? with
        | none => simp [research_agent, hc, hh] at h
        | some text =>
            simp only [research_agent, hc, hh, Except.ok.injEq] at h
            exact ⟨text, h.symm⟩
  · intro complete s d h
    cases hc : complete "sonar-pro" (traderMessages s) with
    | error e => simp [trader_agent, hc] at h
    | ok choices =>
        cases hh : choices.head? with
        | none => simp [trader_agent, hc, hh] at h
        | some text =>
            simp only [trader_agent, hc, hh, Except.ok.injEq] at h
            exact ⟨text, h.symm⟩

theorem c10_delta_frame_witness :
    (∃ v, market_data_agent (fun _ => none) [] = [("price_data", v)]) ∧
    (∃ v, ([("news_summary", "n")] : Dict) = [("news_summary", v)]) ∧
    (∃ v, ([("final_recommendation", "t")] : Dict) = [("final_recommendation", v)]) ∧
    dictGet (dictUpdate [("company_name", "Tata Power")] [("price_data", "p")])
      "company_name" = dictGet [("company_name", "Tata Power")] "company_name" :=
  ⟨c10_delta_frame.1 (fun _ => none) [],
   c10_delta_frame.2.1 (fun _ _ => .ok ["n"]) [] [("news_summary", "n")] rfl,
   c10_delta_frame.2.2.1 (fun _ _ => .ok ["t"]) [] [("final_recommendation", "t")] rfl,
   c10_delta_frame.2.2.2 [("company_name", "Tata Power")] [("price_data", "p")]
     "company_name" (by decide)⟩
